import Mathlib

/-!
Verification of the square-etl synchronization pipeline.

This file shallowly embeds the TypeScript sources of the repository:
provider record shapes and the `fetch*` pagination loops from `src/square.ts`,
the row mappers and upsert writers of `src/etl-square-locations.ts`,
`src/etl-square-payments.ts`, `src/etl-square-catalog.ts`,
`src/etl-square-categories.ts`, `src/etl-square-inventory.ts` and
`src/etl-square-orders.ts`, and it proves or refutes the specified
properties of those functions.

Modelling conventions:
- optional (`field?: T`) and nullable TypeScript fields become `Option`;
  JavaScript string truthiness (`if (s)`) is `none`/empty-string falsiness;
- `parseFloat` is modelled by `jsParseFloat` over exact rationals (`ℚ`);
  the finite / NaN / Infinity distinction of the IEEE result is kept, the
  rounding of a decimal literal to a double is idealized away;
- the relational store backing an upsert writer is a map from the
  `ON CONFLICT` target columns to the full row (SQL `NULL`s are compared
  as equal, i.e. the conflict target behaves as `NULLS NOT DISTINCT`);
- a thrown JavaScript error is `Except.error`; the raw JSON payload kept
  by `JSON.stringify` is modelled by storing the record itself.
-/

namespace SquareETL

/-- JavaScript truthiness of an optional string: `undefined`, `null` and
the empty string are falsy. -/
def truthyO : Option String → Bool
  | none => false
  | some s => !s.isEmpty

/-! ### Provider record shapes (`src/square.ts` interfaces) -/

structure SquareMoney where
  amount : Int
  currency : String
deriving DecidableEq, Repr

structure SquarePayment where
  id : String
  created_at : String
  updated_at : Option String := none
  location_id : Option String := none
  order_id : Option String := none
  status : Option String := none
  customer_id : Option String := none
  reference_id : Option String := none
  amount_money : Option SquareMoney := none
  total_money : Option SquareMoney := none
deriving DecidableEq, Repr

structure SquareLineItem where
  uid : Option String := none
  name : Option String := none
  catalog_object_id : Option String := none
  quantity : Option String := none
  base_price_money : Option SquareMoney := none
  total_money : Option SquareMoney := none
deriving DecidableEq, Repr

structure SquareOrder where
  id : String
  location_id : Option String := none
  line_items : Option (List SquareLineItem) := none
deriving DecidableEq, Repr

/-- The `item_data` object read by the catalog ETL (`obj.item_data?.name`,
`obj.item_data?.category_id`). -/
structure ItemData where
  name : Option String := none
  category_id : Option String := none
deriving DecidableEq, Repr

structure ItemVariationData where
  name : Option String := none
  sku : Option String := none
  item_id : Option String := none
deriving DecidableEq, Repr

structure SquareCatalogObject where
  id : String
  type : String
  is_deleted : Option Bool := none
  item_data : Option ItemData := none
  item_variation_data : Option ItemVariationData := none
deriving DecidableEq, Repr

structure CategoryData where
  name : Option String := none
  is_top_level : Option Bool := none
deriving DecidableEq, Repr

structure SquareCategoryObject where
  id : String
  type : String
  is_deleted : Option Bool := none
  category_data : Option CategoryData := none
deriving DecidableEq, Repr

structure SquareInventoryCount where
  catalog_object_id : Option String := none
  catalog_object_type : Option String := none
  state : Option String := none
  location_id : Option String := none
  quantity : Option String := none
  calculated_at : Option String := none
deriving DecidableEq, Repr

structure SquareAddress where
  address_line_1 : Option String := none
  locality : Option String := none
  administrative_district_level_1 : Option String := none
  postal_code : Option String := none
deriving DecidableEq, Repr

structure SquareLocation where
  id : Option String := none
  name : Option String := none
  address : Option SquareAddress := none
  timezone : Option String := none
  status : Option String := none
deriving DecidableEq, Repr

/-- The tenant identity triple read from the environment by every ETL
script (`TENANT_ID`, `POS_PROVIDER`, `POS_PROVIDER_ACCOUNT_ID`). -/
structure TenantCtx where
  tenant_id : String
  provider : String
  provider_account_id : String
deriving DecidableEq, Repr

/-! ### A model of JavaScript `parseFloat` -/

/-- The result of `parseFloat`: not-a-number, a signed infinity, or a
finite value (kept as an exact rational). -/
inductive JsNum where
  | nan
  | posInf
  | negInf
  | finite (q : ℚ)
deriving DecidableEq, Repr

def JsNum.isFinite : JsNum → Bool
  | .finite _ => true
  | _ => false

def jsWhitespace (c : Char) : Bool :=
  c = ' ' || c = '\t' || c = '\n' || c = '\r' || c = '\x0b' || c = '\x0c'

/-- Strip an optional leading sign; returns `true` when negative. -/
def stripSign : List Char → Bool × List Char
  | '+' :: r => (false, r)
  | '-' :: r => (true, r)
  | cs => (false, cs)

def digitsToNat (ds : List Char) : ℕ :=
  ds.foldl (fun n c => 10 * n + (c.toNat - '0'.toNat)) 0

/-- Exponent part after the `e`/`E` marker; `none` when the marker is not
followed by digits (then `parseFloat` does not consume the marker). -/
def expAfterMarker (r : List Char) : Option Int :=
  let p := stripSign r
  let ds := p.2.takeWhile Char.isDigit
  if ds.isEmpty then none
  else some (if p.1 then -(digitsToNat ds : Int) else (digitsToNat ds : Int))

def expValue : List Char → Int
  | c :: r => if c = 'e' || c = 'E' then (expAfterMarker r).getD 0 else 0
  | [] => 0

/-- The exact rational `m × 10^e / 10^frac`, built with `mkRat` so that the
value is kernel-computable. -/
def decimalValue (m : ℕ) (frac : ℕ) (e : Int) : ℚ :=
  if 0 ≤ e then mkRat (m * 10 ^ e.toNat : ℕ) (10 ^ frac)
  else mkRat (m : ℕ) (10 ^ (frac + (-e).toNat))

/-- JavaScript `parseFloat`: skip whitespace, optional sign, `Infinity`
literal or the longest decimal-literal prefix (`digits [. digits] [exp]`),
`NaN` when no digits were found. Values are exact rationals. -/
def jsParseFloat (s : String) : JsNum :=
  let cs := s.data.dropWhile jsWhitespace
  let sp := stripSign cs
  let neg := sp.1
  let r := sp.2
  if List.isPrefixOf "Infinity".data r then (if neg then .negInf else .posInf)
  else
    let d1 := r.takeWhile Char.isDigit
    let r1 := r.dropWhile Char.isDigit
    let fr : List Char × List Char :=
      match r1 with
      | '.' :: rest => (rest.takeWhile Char.isDigit, rest.dropWhile Char.isDigit)
      | _ => ([], r1)
    let d2 := fr.1
    let r2 := fr.2
    if d1.isEmpty && d2.isEmpty then .nan
    else
      let e := expValue r2
      let v := decimalValue (digitsToNat (d1 ++ d2)) d2.length e
      .finite (if neg then -v else v)

example : jsParseFloat "2.5" = JsNum.finite (mkRat 5 2) := by decide
example : jsParseFloat "0" = JsNum.finite 0 := by decide
example : jsParseFloat "abc" = JsNum.nan := by decide
example : jsParseFloat "-3" = JsNum.finite (-3) := by decide
example : jsParseFloat "1e2" = JsNum.finite 100 := by decide
example : jsParseFloat " .5" = JsNum.finite (mkRat 1 2) := by decide
example : jsParseFloat "Infinity" = JsNum.posInf := by decide
example : jsParseFloat "12abc" = JsNum.finite 12 := by decide
example : jsParseFloat "1e-2" = JsNum.finite (mkRat 1 100) := by decide
example : jsParseFloat "" = JsNum.nan := by decide

/-! ### Row types (the `interface ...Row` declarations of the ETL scripts) -/

structure LocationRow where
  location_id : String
  location_name : String
  address : Option String
  timezone : Option String
  status : Option String
  raw_payload : SquareLocation
deriving DecidableEq, Repr

structure PaymentRow where
  payment_id : String
  order_id : Option String
  location_id : Option String
  created_at : String
  updated_at : Option String
  amount : Int
  currency : String
  status : Option String
  customer_id : Option String
  reference_id : Option String
  raw_payload : SquarePayment
deriving DecidableEq, Repr

structure CatalogRow where
  catalog_object_id : String
  object_type : String
  item_name : Option String
  variation_name : Option String
  sku : Option String
  category_id : Option String
  is_deleted : Bool
  raw_payload : SquareCatalogObject
deriving DecidableEq, Repr

structure CategoryRow where
  category_id : String
  category_name : String
  parent_category_id : Option String
  is_top_level : Bool
  is_deleted : Bool
  raw_payload : SquareCategoryObject
deriving DecidableEq, Repr

structure InventoryRow where
  catalog_object_id : String
  catalog_object_type : Option String
  location_id : Option String
  state : String
  quantity : ℚ
  calculated_at : Option String
  raw_payload : SquareInventoryCount
deriving DecidableEq, Repr

structure OrderItemRow where
  order_id : String
  payment_id : Option String
  line_item_uid : String
  catalog_object_id : Option String
  item_name : Option String
  sku : Option String
  quantity : ℚ
  base_price_amount : Option Int
  total_money_amount : Option Int
  currency : Option String
  location_id : Option String
  raw_payload : SquareLineItem
deriving DecidableEq, Repr

/-! ### Row mappers -/

/-- `mapLocationToRow` of `src/etl-square-locations.ts`: skip when id or
name is falsy, join the truthy address parts with `", "`. -/
def mapLocationToRow (location : SquareLocation) : Option LocationRow :=
  match location.id, location.name with
  | some lid, some lname =>
    if lid.isEmpty || lname.isEmpty then none
    else
      let addressParts :=
        ([location.address.bind SquareAddress.address_line_1,
          location.address.bind SquareAddress.locality,
          location.address.bind SquareAddress.administrative_district_level_1,
          location.address.bind SquareAddress.postal_code].filterMap id).filter
          (fun s => !s.isEmpty)
      let addressString :=
        if addressParts.length > 0 then some (String.intercalate ", " addressParts) else none
      some { location_id := lid, location_name := lname, address := addressString,
             timezone := location.timezone, status := location.status,
             raw_payload := location }
  | _, _ => none

/-- `mapPaymentToRow` of `src/etl-square-payments.ts`: `total_money ??
amount_money`; throws when both are absent. -/
def mapPaymentToRow (p : SquarePayment) : Except String PaymentRow :=
  match p.total_money.orElse (fun _ => p.amount_money) with
  | none => .error ("Payment " ++ p.id ++ " has no money fields")
  | some money =>
    .ok { payment_id := p.id, order_id := p.order_id, location_id := p.location_id,
          created_at := p.created_at, updated_at := p.updated_at,
          amount := money.amount, currency := money.currency, status := p.status,
          customer_id := p.customer_id, reference_id := p.reference_id,
          raw_payload := p }

/-- `mapVariationToRow` of `src/etl-square-catalog.ts` (the version that
also resolves the parent category): skip on falsy id; the item name is
`parentName ?? variationName ?? null`. -/
def mapVariationToRow (variation : SquareCatalogObject) (parentName : Option String)
    (parentCategoryId : Option String) : Option CatalogRow :=
  if variation.id.isEmpty then none
  else
    let variationName := variation.item_variation_data.bind ItemVariationData.name
    let sku := variation.item_variation_data.bind ItemVariationData.sku
    some { catalog_object_id := variation.id, object_type := variation.type,
           item_name := parentName.orElse (fun _ => variationName),
           variation_name := variationName, sku := sku,
           category_id := parentCategoryId,
           is_deleted := variation.is_deleted == some true,
           raw_payload := variation }

/-- `mapCategoryToRow` of `src/etl-square-categories.ts`: skip on falsy id;
name defaults to `"Unknown Category"`, top-level flag to `true`; the parent
category id is left permanently `null` (source TODO). -/
def mapCategoryToRow (category : SquareCategoryObject) : Option CategoryRow :=
  if category.id.isEmpty then none
  else
    some { category_id := category.id,
           category_name := (category.category_data.bind CategoryData.name).getD "Unknown Category",
           parent_category_id := none,
           is_top_level := (category.category_data.bind CategoryData.is_top_level).getD true,
           is_deleted := category.is_deleted == some true,
           raw_payload := category }

/-- `mapInventoryCountToRow` of `src/etl-square-inventory.ts`: skip on
falsy catalog_object_id; quantity defaults to `"0"`, is parsed with
`parseFloat` and must be finite (any sign is accepted). -/
def mapInventoryCountToRow (count : SquareInventoryCount) : Option InventoryRow :=
  match count.catalog_object_id with
  | none => none
  | some cid =>
    if cid.isEmpty then none
    else
      match jsParseFloat (count.quantity.getD "0") with
      | JsNum.finite q =>
        some { catalog_object_id := cid,
               catalog_object_type := count.catalog_object_type,
               location_id := count.location_id,
               state := count.state.getD "UNKNOWN",
               quantity := q,
               calculated_at := count.calculated_at,
               raw_payload := count }
      | _ => none

/-- `mapLineItemToRow` of `src/etl-square-orders.ts`: skip on falsy uid;
quantity defaults to `"0"`, is parsed with `parseFloat` and must be finite
and strictly positive. -/
def mapLineItemToRow (order : SquareOrder) (paymentId : Option String)
    (li : SquareLineItem) : Option OrderItemRow :=
  match li.uid with
  | none => none
  | some uid =>
    if uid.isEmpty then none
    else
      match jsParseFloat (li.quantity.getD "0") with
      | JsNum.finite q =>
        if q ≤ 0 then none
        else
          some { order_id := order.id, payment_id := paymentId, line_item_uid := uid,
                 catalog_object_id := li.catalog_object_id, item_name := li.name,
                 sku := none, quantity := q,
                 base_price_amount := li.base_price_money.map SquareMoney.amount,
                 total_money_amount := li.total_money.map SquareMoney.amount,
                 currency := (li.base_price_money.map SquareMoney.currency).orElse
                   (fun _ => li.total_money.map SquareMoney.currency),
                 location_id := order.location_id,
                 raw_payload := li }
      | _ => none

/-! ### Per-kind orchestrators (the `main` functions, minus I/O) -/

def processLocations (locations : List SquareLocation) : List LocationRow :=
  locations.filterMap mapLocationToRow

def processCategories (categories : List SquareCategoryObject) : List CategoryRow :=
  categories.filterMap mapCategoryToRow

def processInventoryCounts (counts : List SquareInventoryCount) : List InventoryRow :=
  counts.filterMap mapInventoryCountToRow

/-- One `Map.set` step: later writes overwrite earlier ones for the same
key (JavaScript `Map` semantics). -/
def mapSet (k v : String) (m : String → Option String) : String → Option String :=
  fun k2 => if k2 = k then some v else m k2

/-- Generic first pass of the catalog `main`: fold the record set into a
lookup map, one `Map.set` per record that yields an entry. -/
def buildStrMap (entry : SquareCatalogObject → Option (String × String))
    (objects : List SquareCatalogObject) : String → Option String :=
  objects.foldl
    (fun m obj => match entry obj with
      | some kv => mapSet kv.1 kv.2 m
      | none => m)
    (fun _ => none)

/-- `if (obj.type === "ITEM") { if (id && name) itemNameById.set(id, name) }`. -/
def itemNameEntry (obj : SquareCatalogObject) : Option (String × String) :=
  if obj.type = "ITEM" then
    match obj.item_data.bind ItemData.name with
    | some n => if !obj.id.isEmpty && !n.isEmpty then some (obj.id, n) else none
    | none => none
  else none

/-- `if (id && categoryId) itemCategoryById.set(id, categoryId)`. -/
def itemCategoryEntry (obj : SquareCatalogObject) : Option (String × String) :=
  if obj.type = "ITEM" then
    match obj.item_data.bind ItemData.category_id with
    | some c => if !obj.id.isEmpty && !c.isEmpty then some (obj.id, c) else none
    | none => none
  else none

/-- `parentItemId ? lookup.get(parentItemId) ?? null : null`. -/
def parentLookup (m : String → Option String) (parentItemId : Option String) : Option String :=
  match parentItemId with
  | some pid => if pid.isEmpty then none else m pid
  | none => none

/-- The catalog `main` of `src/etl-square-catalog.ts` (category-resolving
version): build the two ITEM lookup maps, map every ITEM_VARIATION through
`mapVariationToRow`, then append a row for every ITEM record (the ITEM
loop performs no id check). -/
def processCatalog (objects : List SquareCatalogObject) : List CatalogRow :=
  let nameMap := buildStrMap itemNameEntry objects
  let catMap := buildStrMap itemCategoryEntry objects
  let variationRows := objects.filterMap (fun obj =>
    if obj.type = "ITEM_VARIATION" then
      let parentItemId := obj.item_variation_data.bind ItemVariationData.item_id
      mapVariationToRow obj (parentLookup nameMap parentItemId)
        (parentLookup catMap parentItemId)
    else none)
  let itemRows := objects.filterMap (fun obj =>
    if obj.type = "ITEM" then
      some { catalog_object_id := obj.id, object_type := obj.type,
             item_name := obj.item_data.bind ItemData.name,
             variation_name := none, sku := none,
             category_id := obj.item_data.bind ItemData.category_id,
             is_deleted := obj.is_deleted.getD false,
             raw_payload := obj }
    else none)
  variationRows ++ itemRows

/-- `p.order_id` guarded by JavaScript truthiness (`if (p.order_id)`). -/
def paymentOrderRef (p : SquarePayment) : Option String :=
  match p.order_id with
  | some oid => if oid.isEmpty then none else some oid
  | none => none

/-- `Map.get` over an insertion-ordered association list. -/
def jsMapGet (m : List (String × String)) (k : String) : Option String :=
  match m with
  | [] => none
  | kv :: rest => if k = kv.1 then some kv.2 else jsMapGet rest k

/-- The `orderToPayment` map of the orders `main`: first payment seen for
an order id wins (`if (!orderToPayment.has(...)) set(...)`), insertion
order preserved. -/
def orderToPayment (payments : List SquarePayment) : List (String × String) :=
  payments.foldl
    (fun m p => match paymentOrderRef p with
      | some oid => if (jsMapGet m oid).isSome then m else m ++ [(oid, p.id)]
      | none => m)
    []

def uniqueOrderIds (payments : List SquarePayment) : List String :=
  (orderToPayment payments).map Prod.fst

/-- The per-order body of the orders `main` loop: fetch the order, skip a
missing order and an order with no (or empty) `line_items`, otherwise map
every line item. -/
def orderRowsFor (fetchedOrder : String → Option SquareOrder) (paymentId : Option String)
    (orderId : String) : List OrderItemRow :=
  match fetchedOrder orderId with
  | none => []
  | some o =>
    match o.line_items with
    | none => []
    | some lis =>
      if lis.isEmpty then []
      else lis.filterMap (mapLineItemToRow o paymentId)

/-- The orders `main` of `src/etl-square-orders.ts`: join payments to
order ids (first seen wins), fetch each distinct order id once, flatten
its line items. `fetchedOrder` stands for the provider's `GET /v2/orders/:id`. -/
def processOrders (fetchedOrder : String → Option SquareOrder)
    (payments : List SquarePayment) : List OrderItemRow :=
  (uniqueOrderIds payments).flatMap
    (fun oid => orderRowsFor fetchedOrder (jsMapGet (orderToPayment payments) oid) oid)

/-! ### The paged fetch loop of `src/square.ts`

`fetchPaymentsPaged`, `fetchCatalogObjects`, `fetchInventoryCounts` and
`fetchCategories` all share the same `do { ... } while (cursor)` loop:
issue a request with the current cursor, on 429 sleep and `continue`
(which in a do-while jumps to the `while (cursor)` condition test), on any
other non-2xx throw, on success append the records and replace the cursor.
The provider is modelled as the list of responses the network returns, in
order; the result is the list of request cursors issued, paired with
`some records` on normal return and `none` when the loop throws (or the
response list is exhausted with the run still waiting). -/

inductive PageResp (α : Type) where
  | rateLimited
  | httpError (status : Nat) (body : String)
  | success (records : List α) (cursor : Option String)
deriving DecidableEq, Repr

/-- The cursor parameter actually attached to a request
(`if (cursor) url.searchParams.set("cursor", cursor)`). -/
def reqCursor (c : Option String) : Option String :=
  if truthyO c then c else none

def pagedFetchGo {α : Type} :
    List (PageResp α) → Option String → List α → List (Option String) × Option (List α)
  | [], cursor, _ => ([reqCursor cursor], none)
  | r :: rest, cursor, acc =>
    match r with
    | .rateLimited =>
      if truthyO cursor then
        let t := pagedFetchGo rest cursor acc
        (reqCursor cursor :: t.1, t.2)
      else ([reqCursor cursor], some acc)
    | .httpError _ _ => ([reqCursor cursor], none)
    | .success recs c =>
      let acc2 := if recs.isEmpty then acc else acc ++ recs
      if truthyO c then
        let t := pagedFetchGo rest c acc2
        (reqCursor cursor :: t.1, t.2)
      else ([reqCursor cursor], some acc2)

def pagedFetch {α : Type} (responses : List (PageResp α)) :
    List (Option String) × Option (List α) :=
  pagedFetchGo responses none []

/-! ### The store and the upsert writers

A table with a uniqueness constraint on its `ON CONFLICT` target is a map
from the target columns to the full row; `INSERT ... ON CONFLICT ... DO
UPDATE SET` with every non-key column overwritten replaces the stored row
wholesale. -/

def DbStore (K R : Type) : Type := K → Option R

def dbUpsert {K R : Type} [DecidableEq K] (key : R → K) (r : R) (s : DbStore K R) :
    DbStore K R :=
  fun k => if k = key r then some r else s k

/-- The per-batch transaction body: one upsert per row, in batch order. -/
def dbApplyBatch {K R : Type} [DecidableEq K] (key : R → K) (rows : List R)
    (s : DbStore K R) : DbStore K R :=
  rows.foldl (fun acc r => dbUpsert key r acc) s

/-- `ON CONFLICT (tenant_id, provider, provider_account_id, location_id)`. -/
def locationKey (ctx : TenantCtx) (r : LocationRow) : String × String × String × String :=
  (ctx.tenant_id, ctx.provider, ctx.provider_account_id, r.location_id)

/-- `ON CONFLICT (tenant_id, provider, payment_id)` — no account id. -/
def paymentKey (ctx : TenantCtx) (r : PaymentRow) : String × String × String :=
  (ctx.tenant_id, ctx.provider, r.payment_id)

/-- `ON CONFLICT (tenant_id, provider, provider_account_id, catalog_object_id)`. -/
def catalogKey (ctx : TenantCtx) (r : CatalogRow) : String × String × String × String :=
  (ctx.tenant_id, ctx.provider, ctx.provider_account_id, r.catalog_object_id)

/-- `ON CONFLICT (tenant_id, provider, provider_account_id, category_id)`. -/
def categoryKey (ctx : TenantCtx) (r : CategoryRow) : String × String × String × String :=
  (ctx.tenant_id, ctx.provider, ctx.provider_account_id, r.category_id)

/-- `ON CONFLICT (tenant_id, provider, provider_account_id,
catalog_object_id, location_id, state)`. -/
def inventoryKey (ctx : TenantCtx) (r : InventoryRow) :
    String × String × String × String × Option String × String :=
  (ctx.tenant_id, ctx.provider, ctx.provider_account_id,
   r.catalog_object_id, r.location_id, r.state)

/-- `ON CONFLICT (tenant_id, provider, order_id, line_item_uid)`. -/
def orderItemKey (ctx : TenantCtx) (r : OrderItemRow) : String × String × String × String :=
  (ctx.tenant_id, ctx.provider, r.order_id, r.line_item_uid)

def upsertLocationRows (ctx : TenantCtx) (rows : List LocationRow)
    (s : DbStore (String × String × String × String) LocationRow) :
    DbStore (String × String × String × String) LocationRow :=
  dbApplyBatch (locationKey ctx) rows s

def upsertCatalogRows (ctx : TenantCtx) (rows : List CatalogRow)
    (s : DbStore (String × String × String × String) CatalogRow) :
    DbStore (String × String × String × String) CatalogRow :=
  dbApplyBatch (catalogKey ctx) rows s

def upsertCategoryRows (ctx : TenantCtx) (rows : List CategoryRow)
    (s : DbStore (String × String × String × String) CategoryRow) :
    DbStore (String × String × String × String) CategoryRow :=
  dbApplyBatch (categoryKey ctx) rows s

def upsertInventoryRows (ctx : TenantCtx) (rows : List InventoryRow)
    (s : DbStore (String × String × String × String × Option String × String) InventoryRow) :
    DbStore (String × String × String × String × Option String × String) InventoryRow :=
  dbApplyBatch (inventoryKey ctx) rows s

def upsertOrderItems (ctx : TenantCtx) (rows : List OrderItemRow)
    (s : DbStore (String × String × String × String) OrderItemRow) :
    DbStore (String × String × String × String) OrderItemRow :=
  dbApplyBatch (orderItemKey ctx) rows s

def PayStore : Type := DbStore (String × String × String) PaymentRow

/-- The transaction body of `upsertPayments` in `src/etl-square-payments.ts`:
each payment is mapped *inside* the loop, so a mapping error aborts the
whole transaction (`Except.error` = the batch is rolled back). -/
def upsertPaymentsGo (ctx : TenantCtx) : List SquarePayment → PayStore →
    Except String PayStore
  | [], s => .ok s
  | p :: rest, s =>
    match mapPaymentToRow p with
    | .error e => .error e
    | .ok row => upsertPaymentsGo ctx rest (dbUpsert (paymentKey ctx) row s)

/-- `upsertPayments`: no-op on an empty batch, otherwise run the
transaction body; `.ok` is COMMIT, `.error` is ROLLBACK + rethrow. -/
def upsertPayments (ctx : TenantCtx) (payments : List SquarePayment) (s : PayStore) :
    Except String PayStore :=
  if payments.isEmpty then .ok s else upsertPaymentsGo ctx payments s

/-- The store visible after the payments run: the committed store on
success, the unchanged store after a rollback. -/
def runPaymentsBatch (ctx : TenantCtx) (payments : List SquarePayment) (s : PayStore) :
    PayStore :=
  match upsertPayments ctx payments s with
  | .ok s2 => s2
  | .error _ => s

/-! ### Conflict targets per entity kind (for the natural-key claim) -/

inductive EntityKind where
  | location
  | category
  | catalogEntry
  | inventorySnapshot
  | payment
  | orderLineItem
deriving DecidableEq, Repr

/-- The `ON CONFLICT (...)` column list of each upsert writer, verbatim
from the SQL text of the six ETL scripts. -/
def conflictTarget : EntityKind → List String
  | .location => ["tenant_id", "provider", "provider_account_id", "location_id"]
  | .category => ["tenant_id", "provider", "provider_account_id", "category_id"]
  | .catalogEntry => ["tenant_id", "provider", "provider_account_id", "catalog_object_id"]
  | .inventorySnapshot =>
      ["tenant_id", "provider", "provider_account_id", "catalog_object_id",
       "location_id", "state"]
  | .payment => ["tenant_id", "provider", "payment_id"]
  | .orderLineItem => ["tenant_id", "provider", "order_id", "line_item_uid"]

def tenantScopeColumns : List String := ["tenant_id", "provider", "provider_account_id"]

/-- The single id column of each entity kind as named by the spec's data
model (spec wording, for comparison with `conflictTarget`). -/
def specEntityIdColumn : EntityKind → String
  | .location => "location_id"
  | .category => "category_id"
  | .catalogEntry => "catalog_object_id"
  | .inventorySnapshot => "catalog_object_id"
  | .payment => "payment_id"
  | .orderLineItem => "line_item_uid"

/-- The natural key as the claim states it: tenant scope plus entity id,
except OrderLineItem (scope + order id + uid) and Payment (account id
omitted). Spec wording, for comparison with `conflictTarget`. -/
def claimedConflictTarget (k : EntityKind) : List String :=
  if k = .orderLineItem then tenantScopeColumns ++ ["order_id", "line_item_uid"]
  else if k = .payment then ["tenant_id", "provider", "payment_id"]
  else tenantScopeColumns ++ [specEntityIdColumn k]

/-! ## Theorems -/

/-- Claim C1: the paged list fetch does *not* satisfy the claimed retry
behaviour. In a JavaScript `do { ... } while (cursor)` loop, `continue`
jumps to the condition test; on the very first request the cursor is still
`undefined`, so a 429 answer to the first request makes the loop exit and
the fetch return `[]` — it never re-issues the request, even though a
success response carrying the page `["r1"]` is next. Under the claim the
result would have been `["r1"]` after one retry; the code issues exactly
one request (cursor `none`) and returns no records. -/
theorem pagedFetch_first429_returns_empty :
    pagedFetch [PageResp.rateLimited, PageResp.success ["r1"] none] =
      ([none], some ([] : List String)) := by
  decide

/-- Claim C3 (counterexample): two kinds contradict the claimed key shape.
The inventory conflict target additionally contains `location_id` and
`state`, and the OrderLineItem conflict target omits
`provider_account_id` (so Payment is not *alone* in omitting it). -/
theorem conflictTarget_claim_false :
    conflictTarget EntityKind.inventorySnapshot ≠
      claimedConflictTarget EntityKind.inventorySnapshot ∧
    conflictTarget EntityKind.orderLineItem ≠
      claimedConflictTarget EntityKind.orderLineItem := by
  decide

/-- Claim C3 (amended): the conflict target is tenant scope plus entity id
with three exceptions: Payment and OrderLineItem both omit
`provider_account_id` (OrderLineItem keys on order id + line item uid),
and InventorySnapshot keys on scope + catalog object id + location id +
state. -/
theorem conflictTarget_amended :
    (∀ k : EntityKind, k ≠ EntityKind.inventorySnapshot →
        k ≠ EntityKind.orderLineItem →
        conflictTarget k = claimedConflictTarget k) ∧
    conflictTarget EntityKind.orderLineItem =
      ["tenant_id", "provider", "order_id", "line_item_uid"] ∧
    conflictTarget EntityKind.inventorySnapshot =
      tenantScopeColumns ++ ["catalog_object_id", "location_id", "state"] := by
  refine ⟨?_, rfl, rfl⟩
  intro k hk1 hk2
  cases k <;> first
    | decide
    | exact absurd rfl hk1
    | exact absurd rfl hk2

/-- Witness for the amended C3 at the Payment kind. -/
theorem conflictTarget_amended_witness :
    conflictTarget EntityKind.payment = claimedConflictTarget EntityKind.payment :=
  conflictTarget_amended.1 EntityKind.payment (by decide) (by decide)

/-- Claim C9: a location whose id or display name is absent or empty is
dropped by `mapLocationToRow` (in particular a valid id with no name is
not mapped with a defaulted name). -/
theorem location_missing_name_dropped :
    ∀ loc : SquareLocation, truthyO loc.id = false ∨ truthyO loc.name = false →
      mapLocationToRow loc = none := by
  intro loc h
  rcases hid : loc.id with _ | lid
  · simp [mapLocationToRow, hid]
  · rcases hname : loc.name with _ | lname
    · simp [mapLocationToRow, hid, hname]
    · rw [hid, hname] at h
      rcases h with h | h <;> simp [truthyO] at h <;>
        simp [mapLocationToRow, hid, hname, h]

/-- Witness for C9: a location with a valid id and no name is dropped. -/
theorem location_missing_name_dropped_witness :
    mapLocationToRow { id := some "L1" } = none :=
  location_missing_name_dropped { id := some "L1" } (Or.inr (by decide))

/-- Claim C10: with the quantity field absent both mappers parse the
substituted text `"0"`: an inventory count without quantity is mapped (and
kept in the batch) with quantity `0`, while an order line item without
quantity is dropped because `0` is not strictly positive. -/
theorem absent_quantity_defaults_zero :
    (∀ (cnt : SquareInventoryCount) (cid : String),
        cnt.catalog_object_id = some cid → cid ≠ "" → cnt.quantity = none →
        ∃ r, mapInventoryCountToRow cnt = some r ∧ r.quantity = 0) ∧
    (∀ (counts : List SquareInventoryCount) (cnt : SquareInventoryCount) (r : InventoryRow),
        cnt ∈ counts → mapInventoryCountToRow cnt = some r →
        r ∈ processInventoryCounts counts) ∧
    (∀ (o : SquareOrder) (pid : Option String) (li : SquareLineItem),
        li.quantity = none → mapLineItemToRow o pid li = none) := by
  have h0 : jsParseFloat "0" = JsNum.finite 0 := by decide
  refine ⟨?_, ?_, ?_⟩
  · intro cnt cid hcid hne hq
    have hempty : cid.isEmpty = false := by
      cases hc : cid.isEmpty
      · rfl
      · exact absurd ((String.isEmpty_iff cid).1 hc) hne
    have hmap : mapInventoryCountToRow cnt = some
        { catalog_object_id := cid, catalog_object_type := cnt.catalog_object_type,
          location_id := cnt.location_id, state := cnt.state.getD "UNKNOWN",
          quantity := 0, calculated_at := cnt.calculated_at, raw_payload := cnt } := by
      simp [mapInventoryCountToRow, hcid, hempty, hq, h0]
    exact ⟨_, hmap, rfl⟩
  · intro counts cnt r hmem hmap
    exact List.mem_filterMap.2 ⟨cnt, hmem, hmap⟩
  · intro o pid li hq
    rcases huid : li.uid with _ | uid
    · simp [mapLineItemToRow, huid]
    · cases he : uid.isEmpty
      · simp [mapLineItemToRow, huid, he, hq, h0]
      · simp [mapLineItemToRow, huid, he]

/-- Witness for C10 at concrete records. -/
theorem absent_quantity_defaults_zero_witness :
    (∃ r, mapInventoryCountToRow { catalog_object_id := some "CO1" } = some r ∧
      r.quantity = 0) ∧
    mapLineItemToRow { id := "O1" } none { uid := some "u1" } = none :=
  ⟨absent_quantity_defaults_zero.1 { catalog_object_id := some "CO1" } "CO1" rfl
      (by decide) rfl,
   absent_quantity_defaults_zero.2.2 { id := "O1" } none { uid := some "u1" } rfl⟩

/-- Claim C5: an order line item is kept iff its quantity text parses to a
finite, strictly positive value (a NaN/Infinity parse or a value ≤ 0 is
dropped); an inventory count only needs a finite parse — zero and negative
quantities are kept. Batches are `filterMap`s of the mappers, so a `none`
result is exactly exclusion from the batch. -/
theorem quantity_validation :
    (∀ (o : SquareOrder) (pid : Option String) (li : SquareLineItem),
        (∀ q : ℚ, jsParseFloat (li.quantity.getD "0") = JsNum.finite q → q ≤ 0) →
        mapLineItemToRow o pid li = none) ∧
    (∀ (o : SquareOrder) (pid : Option String) (li : SquareLineItem) (q : ℚ),
        truthyO li.uid = true → jsParseFloat (li.quantity.getD "0") = JsNum.finite q →
        0 < q → ∃ r, mapLineItemToRow o pid li = some r ∧ r.quantity = q) ∧
    (∀ (cnt : SquareInventoryCount) (q : ℚ),
        truthyO cnt.catalog_object_id = true →
        jsParseFloat (cnt.quantity.getD "0") = JsNum.finite q →
        ∃ r, mapInventoryCountToRow cnt = some r ∧ r.quantity = q) ∧
    (∀ cnt : SquareInventoryCount,
        (∀ q : ℚ, jsParseFloat (cnt.quantity.getD "0") ≠ JsNum.finite q) →
        mapInventoryCountToRow cnt = none) := by
  refine ⟨?_, ?_, ?_, ?_⟩
  · intro o pid li h
    rcases huid : li.uid with _ | uid
    · simp [mapLineItemToRow, huid]
    · cases he : uid.isEmpty
      · cases hp : jsParseFloat (li.quantity.getD "0") with
        | finite q => simp [mapLineItemToRow, huid, he, hp, h q hp]
        | nan => simp [mapLineItemToRow, huid, he, hp]
        | posInf => simp [mapLineItemToRow, huid, he, hp]
        | negInf => simp [mapLineItemToRow, huid, he, hp]
      · simp [mapLineItemToRow, huid, he]
  · intro o pid li q huid hp hpos
    rcases hu : li.uid with _ | uid
    · rw [hu] at huid; exact absurd huid (by simp [truthyO])
    · rw [hu] at huid
      simp [truthyO] at huid
      have hmap : mapLineItemToRow o pid li = some
          { order_id := o.id, payment_id := pid, line_item_uid := uid,
            catalog_object_id := li.catalog_object_id, item_name := li.name,
            sku := none, quantity := q,
            base_price_amount := li.base_price_money.map SquareMoney.amount,
            total_money_amount := li.total_money.map SquareMoney.amount,
            currency := (li.base_price_money.map SquareMoney.currency).orElse
              (fun _ => li.total_money.map SquareMoney.currency),
            location_id := o.location_id, raw_payload := li } := by
        simp [mapLineItemToRow, hu, huid, hp, hpos.not_le]
      exact ⟨_, hmap, rfl⟩
  · intro cnt q hcid hp
    rcases hc : cnt.catalog_object_id with _ | cid
    · rw [hc] at hcid; exact absurd hcid (by simp [truthyO])
    · rw [hc] at hcid
      simp [truthyO] at hcid
      have hmap : mapInventoryCountToRow cnt = some
          { catalog_object_id := cid, catalog_object_type := cnt.catalog_object_type,
            location_id := cnt.location_id, state := cnt.state.getD "UNKNOWN",
            quantity := q, calculated_at := cnt.calculated_at, raw_payload := cnt } := by
        simp [mapInventoryCountToRow, hc, hcid, hp]
      exact ⟨_, hmap, rfl⟩
  · intro cnt h
    rcases hc : cnt.catalog_object_id with _ | cid
    · simp [mapInventoryCountToRow, hc]
    · cases he : cid.isEmpty
      · cases hp : jsParseFloat (cnt.quantity.getD "0") with
        | finite q => exact absurd hp (h q)
        | nan => simp [mapInventoryCountToRow, hc, he, hp]
        | posInf => simp [mapInventoryCountToRow, hc, he, hp]
        | negInf => simp [mapInventoryCountToRow, hc, he, hp]
      · simp [mapInventoryCountToRow, hc, he]

/-- Witness for C5 at concrete quantity strings. -/
theorem quantity_validation_witness :
    mapLineItemToRow { id := "O1" } none { uid := some "u1", quantity := some "-2" } = none ∧
    (∃ r, mapLineItemToRow { id := "O1" } none { uid := some "u1", quantity := some "2.5" } =
      some r ∧ r.quantity = mkRat 5 2) ∧
    (∃ r, mapInventoryCountToRow { catalog_object_id := some "CO1", quantity := some "-2" } =
      some r ∧ r.quantity = mkRat (-2) 1) ∧
    mapInventoryCountToRow { catalog_object_id := some "CO1", quantity := some "abc" } =
      none := by
  have hneg : jsParseFloat "-2" = JsNum.finite (mkRat (-2) 1) := by decide
  have habc : jsParseFloat "abc" = JsNum.nan := by decide
  refine ⟨?_, ?_, ?_, ?_⟩
  · refine quantity_validation.1 _ none _ (fun q hq => ?_)
    have hq2 : jsParseFloat "-2" = JsNum.finite q := hq
    rw [hneg] at hq2
    injection hq2 with h2
    rw [← h2]
    decide
  · exact quantity_validation.2.1 _ none _ (mkRat 5 2) (by decide) (by decide) (by decide)
  · exact quantity_validation.2.2.1 _ (mkRat (-2) 1) (by decide) hneg
  · refine quantity_validation.2.2.2 _ (fun q hq => ?_)
    have hq2 : jsParseFloat "abc" = JsNum.finite q := hq
    rw [habc] at hq2
    exact JsNum.noConfusion hq2

/-- Claim C8 (counterexample): not every entity kind drops a record with a
missing id. The catalog `main` pushes a row for every ITEM record with no
id check at all: an ITEM whose id is missing (empty) produces a row with
`catalog_object_id = ""` that reaches the upsert writer. (The Payment
mapper likewise performs no id validation.) -/
theorem missing_id_claim_false :
    processCatalog [{ id := "", type := "ITEM" }] =
      [{ catalog_object_id := "", object_type := "ITEM", item_name := none,
         variation_name := none, sku := none, category_id := none,
         is_deleted := false,
         raw_payload := { id := "", type := "ITEM" } }] := by
  decide

/-- Claim C8 (amended): for Location, Category, catalog ITEM_VARIATION,
InventorySnapshot and OrderLineItem records, a record missing its required
id (absent or empty; uid for line items) is dropped silently — the mapper
returns `none`, so the `filterMap`-built batch excludes it and the rest of
the batch is unaffected. (Payment's mapper performs no id check, and the
catalog ITEM loop pushes rows without an id check.) -/
theorem missing_id_dropped_amended :
    (∀ loc : SquareLocation, truthyO loc.id = false → mapLocationToRow loc = none) ∧
    (∀ category : SquareCategoryObject, category.id = "" →
        mapCategoryToRow category = none) ∧
    (∀ (obj : SquareCatalogObject) (pn pc : Option String), obj.id = "" →
        mapVariationToRow obj pn pc = none) ∧
    (∀ cnt : SquareInventoryCount, truthyO cnt.catalog_object_id = false →
        mapInventoryCountToRow cnt = none) ∧
    (∀ (o : SquareOrder) (pid : Option String) (li : SquareLineItem),
        truthyO li.uid = false → mapLineItemToRow o pid li = none) ∧
    (∀ (xs ys : List SquareCategoryObject) (category : SquareCategoryObject),
        category.id = "" →
        processCategories (xs ++ category :: ys) = processCategories (xs ++ ys)) := by
  have hcat : ∀ category : SquareCategoryObject, category.id = "" →
      mapCategoryToRow category = none := by
    intro category h
    simp only [mapCategoryToRow, h]
    rfl
  refine ⟨?_, hcat, ?_, ?_, ?_, ?_⟩
  · intro loc h
    rcases hid : loc.id with _ | lid
    · simp [mapLocationToRow, hid]
    · rw [hid] at h
      simp [truthyO] at h
      rcases hname : loc.name with _ | lname <;>
        simp [mapLocationToRow, hid, hname, h]
  · intro obj pn pc h
    simp only [mapVariationToRow, h]
    rfl
  · intro cnt h
    rcases hc : cnt.catalog_object_id with _ | cid
    · simp [mapInventoryCountToRow, hc]
    · rw [hc] at h
      simp [truthyO] at h
      simp [mapInventoryCountToRow, hc, h]
  · intro o pid li h
    rcases hu : li.uid with _ | uid
    · simp [mapLineItemToRow, hu]
    · rw [hu] at h
      simp [truthyO] at h
      simp [mapLineItemToRow, hu, h]
  · intro xs ys category h
    simp [processCategories, List.filterMap_append, List.filterMap_cons, hcat category h]

/-- Witness for the amended C8: a category with an empty id is dropped and
leaves the rest of the batch unchanged. -/
theorem missing_id_dropped_amended_witness :
    mapCategoryToRow { id := "", type := "CATEGORY" } = none ∧
    processCategories [{ id := "", type := "CATEGORY" }] = processCategories [] :=
  ⟨missing_id_dropped_amended.2.1 { id := "", type := "CATEGORY" } rfl,
   missing_id_dropped_amended.2.2.2.2.2 [] [] { id := "", type := "CATEGORY" } rfl⟩

lemma upsertPaymentsGo_error (ctx : TenantCtx) :
    ∀ (ps : List SquarePayment) (s : PayStore) (p : SquarePayment),
      p ∈ ps → p.total_money = none → p.amount_money = none →
      ∃ e, upsertPaymentsGo ctx ps s = .error e := by
  intro ps
  induction ps with
  | nil =>
    intro s p hp
    cases hp
  | cons q rest ih =>
    intro s p hp ht ha
    rcases List.mem_cons.1 hp with rfl | hp2
    · have hm : mapPaymentToRow p = .error ("Payment " ++ p.id ++ " has no money fields") := by
        simp [mapPaymentToRow, ht, ha, Option.orElse]
      exact ⟨"Payment " ++ p.id ++ " has no money fields",
        by simp [upsertPaymentsGo, hm]⟩
    · cases hm : mapPaymentToRow q with
      | error e => exact ⟨e, by simp [upsertPaymentsGo, hm]⟩
      | ok row =>
        obtain ⟨e, he⟩ := ih (dbUpsert (paymentKey ctx) row s) p hp2 ht ha
        exact ⟨e, by simp [upsertPaymentsGo, hm, he]⟩

/-- Claim C2: a payment with neither `total_money` nor `amount_money`
makes `mapPaymentToRow` throw; since every payment is mapped inside the
write transaction, the whole batch is rolled back (`Except.error`, visible
store unchanged) and the error propagates to the run's caller. -/
theorem paymentMissingMoney_aborts_batch :
    ∀ (ctx : TenantCtx) (ps : List SquarePayment) (s : PayStore) (p : SquarePayment),
      p ∈ ps → p.total_money = none → p.amount_money = none →
      (∃ e, upsertPayments ctx ps s = .error e) ∧ runPaymentsBatch ctx ps s = s := by
  intro ctx ps s p hp ht ha
  cases ps with
  | nil => cases hp
  | cons q rest =>
    obtain ⟨e, he⟩ := upsertPaymentsGo_error ctx (q :: rest) s p hp ht ha
    have hu : upsertPayments ctx (q :: rest) s = .error e := by
      simp [upsertPayments, he]
    exact ⟨⟨e, hu⟩, by simp [runPaymentsBatch, hu]⟩

def ctx0 : TenantCtx :=
  { tenant_id := "T1", provider := "square", provider_account_id := "default-square" }

def payNoMoney : SquarePayment := { id := "P0", created_at := "2024-01-01T00:00:00Z" }

def emptyPayStore : PayStore := fun _ => none

/-- Witness for C2: a one-payment batch with no money fields errors and
leaves the store untouched. -/
theorem paymentMissingMoney_aborts_batch_witness :
    (∃ e, upsertPayments ctx0 [payNoMoney] emptyPayStore = .error e) ∧
    runPaymentsBatch ctx0 [payNoMoney] emptyPayStore = emptyPayStore :=
  paymentMissingMoney_aborts_batch ctx0 [payNoMoney] emptyPayStore payNoMoney
    (List.mem_singleton.2 rfl) rfl rfl

/-- The last row of the batch written to key `k`, if any; the batch fold
leaves exactly this row at `k`. -/
def lastRowFor {K R : Type} [DecidableEq K] (key : R → K) (rows : List R) (k : K) :
    Option R :=
  rows.foldl (fun acc r => if k = key r then some r else acc) none

lemma lastRowFor_from {K R : Type} [DecidableEq K] (key : R → K) (k : K) :
    ∀ (rows : List R) (a : Option R),
      rows.foldl (fun acc r => if k = key r then some r else acc) a =
        match lastRowFor key rows k with
        | some r => some r
        | none => a := by
  intro rows
  induction rows with
  | nil =>
    intro a
    simp [lastRowFor]
  | cons r rest ih =>
    intro a
    rw [List.foldl_cons, ih]
    have h2 : lastRowFor key (r :: rest) k =
        match lastRowFor key rest k with
        | some r2 => some r2
        | none => if k = key r then some r else none := by
      rw [lastRowFor, List.foldl_cons, ih]
    rw [h2]
    rcases lastRowFor key rest k with _ | r2
    · by_cases hk : k = key r <;> simp [hk]
    · simp

lemma dbApplyBatch_apply {K R : Type} [DecidableEq K] (key : R → K) :
    ∀ (rows : List R) (s : DbStore K R) (k : K),
      dbApplyBatch key rows s k =
        match lastRowFor key rows k with
        | some r => some r
        | none => s k := by
  intro rows
  induction rows with
  | nil =>
    intro s k
    simp [dbApplyBatch, lastRowFor]
  | cons r rest ih =>
    intro s k
    have h1 : dbApplyBatch key (r :: rest) s = dbApplyBatch key rest (dbUpsert key r s) :=
      rfl
    rw [h1, ih]
    have h2 : lastRowFor key (r :: rest) k =
        match lastRowFor key rest k with
        | some r2 => some r2
        | none => if k = key r then some r else none := by
      rw [lastRowFor, List.foldl_cons, lastRowFor_from]
    rw [h2]
    rcases lastRowFor key rest k with _ | r2
    · by_cases hk : k = key r <;> simp [dbUpsert, hk]
    · simp

lemma dbApplyBatch_idem {K R : Type} [DecidableEq K] (key : R → K) (rows : List R)
    (s : DbStore K R) :
    dbApplyBatch key rows (dbApplyBatch key rows s) = dbApplyBatch key rows s := by
  funext k
  rw [dbApplyBatch_apply, dbApplyBatch_apply]
  rcases lastRowFor key rows k with _ | r <;> rfl

/-- The rows a payment batch maps to, or the first mapping error. -/
def paymentRows : List SquarePayment → Except String (List PaymentRow)
  | [] => .ok []
  | p :: rest =>
    match mapPaymentToRow p with
    | .error e => .error e
    | .ok row =>
      match paymentRows rest with
      | .error e => .error e
      | .ok rows => .ok (row :: rows)

lemma upsertPaymentsGo_eq (ctx : TenantCtx) :
    ∀ (ps : List SquarePayment) (s : PayStore),
      upsertPaymentsGo ctx ps s =
        match paymentRows ps with
        | .error e => .error e
        | .ok rows => .ok (dbApplyBatch (paymentKey ctx) rows s) := by
  intro ps
  induction ps with
  | nil =>
    intro s
    rfl
  | cons p rest ih =>
    intro s
    cases hm : mapPaymentToRow p with
    | error e => simp [upsertPaymentsGo, paymentRows, hm]
    | ok row =>
      have h1 : upsertPaymentsGo ctx (p :: rest) s =
          upsertPaymentsGo ctx rest (dbUpsert (paymentKey ctx) row s) := by
        simp [upsertPaymentsGo, hm]
      rw [h1, ih]
      cases hr : paymentRows rest with
      | error e => simp [paymentRows, hm, hr]
      | ok rows =>
        simp only [paymentRows, hm, hr]
        rfl

/-- Claim C4: for every entity kind, applying the upsert of a batch twice
yields the same store as applying it once (the store tracks every row
column except the auto-refreshed `updated_at` bookkeeping timestamp, which
Payment and OrderLineItem rows do not have). For payments the batch is
upserted through the mapping transaction, so idempotence is stated on a
successfully committed batch. -/
theorem upsert_idempotent :
    (∀ (ctx : TenantCtx) (rows : List LocationRow) (s),
        upsertLocationRows ctx rows (upsertLocationRows ctx rows s) =
          upsertLocationRows ctx rows s) ∧
    (∀ (ctx : TenantCtx) (rows : List CatalogRow) (s),
        upsertCatalogRows ctx rows (upsertCatalogRows ctx rows s) =
          upsertCatalogRows ctx rows s) ∧
    (∀ (ctx : TenantCtx) (rows : List CategoryRow) (s),
        upsertCategoryRows ctx rows (upsertCategoryRows ctx rows s) =
          upsertCategoryRows ctx rows s) ∧
    (∀ (ctx : TenantCtx) (rows : List InventoryRow) (s),
        upsertInventoryRows ctx rows (upsertInventoryRows ctx rows s) =
          upsertInventoryRows ctx rows s) ∧
    (∀ (ctx : TenantCtx) (rows : List OrderItemRow) (s),
        upsertOrderItems ctx rows (upsertOrderItems ctx rows s) =
          upsertOrderItems ctx rows s) ∧
    (∀ (ctx : TenantCtx) (ps : List SquarePayment) (s s2 : PayStore),
        upsertPayments ctx ps s = .ok s2 → upsertPayments ctx ps s2 = .ok s2) := by
  refine ⟨fun ctx rows s => dbApplyBatch_idem _ rows s,
          fun ctx rows s => dbApplyBatch_idem _ rows s,
          fun ctx rows s => dbApplyBatch_idem _ rows s,
          fun ctx rows s => dbApplyBatch_idem _ rows s,
          fun ctx rows s => dbApplyBatch_idem _ rows s, ?_⟩
  intro ctx ps s s2 h
  by_cases he : ps.isEmpty
  · rw [upsertPayments, if_pos he] at h
    rw [upsertPayments, if_pos he]
  · rw [upsertPayments, if_neg he] at h
    rw [upsertPayments, if_neg he]
    rw [upsertPaymentsGo_eq] at h ⊢
    cases hr : paymentRows ps with
    | error e =>
      rw [hr] at h
      cases h
    | ok rows =>
      rw [hr] at h
      cases h
      show Except.ok (dbApplyBatch (paymentKey ctx) rows
          (dbApplyBatch (paymentKey ctx) rows s)) =
        Except.ok (dbApplyBatch (paymentKey ctx) rows s)
      rw [dbApplyBatch_idem]

def payWithMoney : SquarePayment :=
  { id := "P1", created_at := "2024-01-01T00:00:00Z",
    amount_money := some { amount := 100, currency := "SEK" } }

def payWithMoneyRow : PaymentRow :=
  { payment_id := "P1", order_id := none, location_id := none,
    created_at := "2024-01-01T00:00:00Z", updated_at := none,
    amount := 100, currency := "SEK", status := none, customer_id := none,
    reference_id := none, raw_payload := payWithMoney }

def payStoreOnce : PayStore := dbUpsert (paymentKey ctx0) payWithMoneyRow emptyPayStore

/-- Witness for C4 at a concrete one-payment batch: the committed store is
a fixed point of re-running the same batch. -/
theorem upsert_idempotent_witness :
    upsertPayments ctx0 [payWithMoney] emptyPayStore = Except.ok payStoreOnce ∧
    upsertPayments ctx0 [payWithMoney] payStoreOnce = Except.ok payStoreOnce := by
  have h1 : upsertPayments ctx0 [payWithMoney] emptyPayStore = Except.ok payStoreOnce :=
    rfl
  exact ⟨h1, upsert_idempotent.2.2.2.2.2 ctx0 [payWithMoney] emptyPayStore payStoreOnce h1⟩

lemma buildStrMap_foldl (entry : SquareCatalogObject → Option (String × String))
    (k v : String) :
    ∀ (objects : List SquareCatalogObject) (m : String → Option String),
      (∀ o ∈ objects, ∀ v2, entry o = some (k, v2) → v2 = v) →
      (m k = some v ∨ ∃ o ∈ objects, entry o = some (k, v)) →
      objects.foldl
        (fun m2 obj => match entry obj with
          | some kv => mapSet kv.1 kv.2 m2
          | none => m2) m k = some v := by
  intro objects
  induction objects with
  | nil =>
    intro m _ hsrc
    rcases hsrc with h | ⟨o, ho, _⟩
    · simpa using h
    · cases ho
  | cons o rest ih =>
    intro m hagree hsrc
    rw [List.foldl_cons]
    have hagree2 : ∀ o2 ∈ rest, ∀ v2, entry o2 = some (k, v2) → v2 = v :=
      fun o2 ho2 => hagree o2 (List.mem_cons_of_mem _ ho2)
    cases he : entry o with
    | none =>
      simp only [he]
      apply ih m hagree2
      rcases hsrc with h | ⟨o2, ho2, hset⟩
      · exact Or.inl h
      · rcases List.mem_cons.1 ho2 with rfl | ho3
        · rw [he] at hset; cases hset
        · exact Or.inr ⟨o2, ho3, hset⟩
    | some kv =>
      obtain ⟨k1, v1⟩ := kv
      simp only [he]
      by_cases hk : k1 = k
      · subst hk
        have hv1 : v1 = v := hagree o (List.mem_cons_self o rest) v1 he
        subst hv1
        apply ih _ hagree2
        exact Or.inl (by simp [mapSet])
      · apply ih _ hagree2
        rcases hsrc with h | ⟨o2, ho2, hset⟩
        · exact Or.inl (by simpa [mapSet, Ne.symm hk] using h)
        · rcases List.mem_cons.1 ho2 with rfl | ho3
          · rw [he] at hset
            injection hset with h2
            exact absurd (congrArg Prod.fst h2) hk
          · exact Or.inr ⟨o2, ho3, hset⟩

lemma buildStrMap_lookup (entry : SquareCatalogObject → Option (String × String))
    (objects : List SquareCatalogObject) (k v : String)
    (hagree : ∀ o ∈ objects, ∀ v2, entry o = some (k, v2) → v2 = v)
    (hex : ∃ o ∈ objects, entry o = some (k, v)) :
    buildStrMap entry objects k = some v :=
  buildStrMap_foldl entry k v objects (fun _ => none) hagree (Or.inr hex)

lemma isEmpty_false_of_ne (s : String) (h : s ≠ "") : s.isEmpty = false := by
  cases hc : s.isEmpty
  · rfl
  · exact absurd ((String.isEmpty_iff s).1 hc) h

/-- Claim C6: a variation whose parent ITEM (unique for its id, with
nonempty id, name and category id) is in the record set inherits the
parent's name and category id, and keeps its own variation name and sku;
with no parent resolved the item name falls back to the variation's own
name, and is absent when that is also absent. -/
theorem catalog_inheritance :
    (∀ (objects : List SquareCatalogObject) (item v : SquareCatalogObject)
        (ivd : ItemVariationData) (I N C V S : String),
        item ∈ objects → item.type = "ITEM" → item.id = I →
        item.item_data = some { name := some N, category_id := some C } →
        I ≠ "" → N ≠ "" → C ≠ "" →
        (∀ o ∈ objects, o.type = "ITEM" → o.id = I →
          o.item_data = some { name := some N, category_id := some C }) →
        v ∈ objects → v.type = "ITEM_VARIATION" → v.id ≠ "" →
        v.item_variation_data = some ivd → ivd.item_id = some I →
        ivd.name = some V → ivd.sku = some S →
        ∃ r ∈ processCatalog objects,
          r.catalog_object_id = v.id ∧ r.item_name = some N ∧
          r.variation_name = some V ∧ r.sku = some S ∧ r.category_id = some C) ∧
    (∀ (v : SquareCatalogObject) (pc : Option String), v.id ≠ "" →
        ∃ r, mapVariationToRow v none pc = some r ∧
          r.item_name = v.item_variation_data.bind ItemVariationData.name ∧
          r.category_id = pc) := by
  constructor
  · intro objects item v ivd I N C V S hitem_mem htype hid hdata hI hN hC hall
      hv_mem hvtype hvid hivd hitem_id hname hsku
    have hentryN : itemNameEntry item = some (I, N) := by
      simp [itemNameEntry, htype, hdata, hid,
        isEmpty_false_of_ne _ hI, isEmpty_false_of_ne _ hN]
    have hentryC : itemCategoryEntry item = some (I, C) := by
      simp [itemCategoryEntry, htype, hdata, hid,
        isEmpty_false_of_ne _ hI, isEmpty_false_of_ne _ hC]
    have hagreeN : ∀ o ∈ objects, ∀ v2, itemNameEntry o = some (I, v2) → v2 = N := by
      intro o ho v2 he
      unfold itemNameEntry at he
      by_cases hto : o.type = "ITEM"
      · rw [if_pos hto] at he
        cases hn : o.item_data.bind ItemData.name with
        | none => rw [hn] at he; cases he
        | some n =>
          rw [hn] at he
          have he2 : (if (!o.id.isEmpty && !n.isEmpty) = true
              then some (o.id, n) else none) = some (I, v2) := he
          by_cases hcond : (!o.id.isEmpty && !n.isEmpty) = true
          · rw [if_pos hcond] at he2
            injection he2 with h2
            have hoid : o.id = I := congrArg Prod.fst h2
            have hnv : n = v2 := congrArg Prod.snd h2
            rw [hall o ho hto hoid] at hn
            have hn2 : some N = some n := hn
            injection hn2 with hn3
            rw [← hnv, ← hn3]
          · rw [if_neg hcond] at he2; cases he2
      · rw [if_neg hto] at he; cases he
    have hagreeC : ∀ o ∈ objects, ∀ v2, itemCategoryEntry o = some (I, v2) → v2 = C := by
      intro o ho v2 he
      unfold itemCategoryEntry at he
      by_cases hto : o.type = "ITEM"
      · rw [if_pos hto] at he
        cases hn : o.item_data.bind ItemData.category_id with
        | none => rw [hn] at he; cases he
        | some n =>
          rw [hn] at he
          have he2 : (if (!o.id.isEmpty && !n.isEmpty) = true
              then some (o.id, n) else none) = some (I, v2) := he
          by_cases hcond : (!o.id.isEmpty && !n.isEmpty) = true
          · rw [if_pos hcond] at he2
            injection he2 with h2
            have hoid : o.id = I := congrArg Prod.fst h2
            have hnv : n = v2 := congrArg Prod.snd h2
            rw [hall o ho hto hoid] at hn
            have hn2 : some C = some n := hn
            injection hn2 with hn3
            rw [← hnv, ← hn3]
          · rw [if_neg hcond] at he2; cases he2
      · rw [if_neg hto] at he; cases he
    have hmapN : buildStrMap itemNameEntry objects I = some N :=
      buildStrMap_lookup _ _ _ _ hagreeN ⟨item, hitem_mem, hentryN⟩
    have hmapC : buildStrMap itemCategoryEntry objects I = some C :=
      buildStrMap_lookup _ _ _ _ hagreeC ⟨item, hitem_mem, hentryC⟩
    have hvempty : v.id.isEmpty = false := isEmpty_false_of_ne _ hvid
    refine ⟨{ catalog_object_id := v.id, object_type := v.type,
              item_name := some N, variation_name := some V, sku := some S,
              category_id := some C, is_deleted := v.is_deleted == some true,
              raw_payload := v }, ?_, rfl, rfl, rfl, rfl, rfl⟩
    simp only [processCatalog]
    refine List.mem_append_left _ (List.mem_filterMap.2 ⟨v, hv_mem, ?_⟩)
    rw [if_pos hvtype, hivd]
    show mapVariationToRow v
        (parentLookup (buildStrMap itemNameEntry objects) ivd.item_id)
        (parentLookup (buildStrMap itemCategoryEntry objects) ivd.item_id) = _
    rw [hitem_id]
    show mapVariationToRow v
        (if I.isEmpty then none else buildStrMap itemNameEntry objects I)
        (if I.isEmpty then none else buildStrMap itemCategoryEntry objects I) = _
    rw [isEmpty_false_of_ne _ hI]
    simp only [Bool.false_eq_true, if_false, hmapN, hmapC]
    simp only [mapVariationToRow, hvempty, Bool.false_eq_true, if_false, hivd,
      Option.some_bind, hname, hsku]
    rfl
  · intro v pc h
    have hvempty : v.id.isEmpty = false := isEmpty_false_of_ne _ h
    refine ⟨{ catalog_object_id := v.id, object_type := v.type,
              item_name := v.item_variation_data.bind ItemVariationData.name,
              variation_name := v.item_variation_data.bind ItemVariationData.name,
              sku := v.item_variation_data.bind ItemVariationData.sku,
              category_id := pc, is_deleted := v.is_deleted == some true,
              raw_payload := v }, ?_, rfl, rfl⟩
    simp only [mapVariationToRow, hvempty, Bool.false_eq_true, if_false]
    rfl

def itemLatte : SquareCatalogObject :=
  { id := "I1", type := "ITEM",
    item_data := some { name := some "Latte", category_id := some "C1" } }

def variationLarge : SquareCatalogObject :=
  { id := "V1", type := "ITEM_VARIATION",
    item_variation_data := some { name := some "Large", sku := some "SKU1",
                                  item_id := some "I1" } }

/-- Witness for C6: the spec's Latte/Large example. -/
theorem catalog_inheritance_witness :
    ∃ r ∈ processCatalog [itemLatte, variationLarge],
      r.catalog_object_id = "V1" ∧ r.item_name = some "Latte" ∧
      r.variation_name = some "Large" ∧ r.sku = some "SKU1" ∧
      r.category_id = some "C1" :=
  catalog_inheritance.1 [itemLatte, variationLarge] itemLatte variationLarge
    { name := some "Large", sku := some "SKU1", item_id := some "I1" }
    "I1" "Latte" "C1" "Large" "SKU1"
    (List.mem_cons_self _ _) rfl rfl rfl (by decide) (by decide) (by decide)
    (by decide)
    (List.mem_cons_of_mem _ (List.mem_cons_self _ _)) rfl (by decide) rfl rfl rfl rfl

lemma jsMapGet_append : ∀ (m1 m2 : List (String × String)) (k : String),
    jsMapGet (m1 ++ m2) k =
      match jsMapGet m1 k with
      | some v => some v
      | none => jsMapGet m2 k := by
  intro m1
  induction m1 with
  | nil =>
    intro m2 k
    rfl
  | cons kv rest ih =>
    intro m2 k
    by_cases hk : k = kv.1 <;> simp [jsMapGet, hk, ih]

lemma jsMapGet_eq_none (k : String) : ∀ m : List (String × String),
    jsMapGet m k = none ↔ k ∉ m.map Prod.fst := by
  intro m
  induction m with
  | nil => simp [jsMapGet]
  | cons kv rest ih =>
    by_cases hk : k = kv.1 <;> simp [jsMapGet, hk, ih]

lemma paymentOrderRef_some {p : SquarePayment} {oid : String}
    (h : paymentOrderRef p = some oid) : p.order_id = some oid ∧ oid ≠ "" := by
  unfold paymentOrderRef at h
  cases ho : p.order_id with
  | none => rw [ho] at h; cases h
  | some s =>
    rw [ho] at h
    have h2 : (if s.isEmpty then none else some s : Option String) = some oid := h
    by_cases hs : s.isEmpty
    · rw [if_pos hs] at h2; cases h2
    · rw [if_neg hs] at h2
      injection h2 with h3
      subst h3
      exact ⟨rfl, fun hc => hs (by rw [hc]; rfl)⟩

lemma paymentOrderRef_none_beq {p : SquarePayment} {k : String} (hk : k ≠ "")
    (h : paymentOrderRef p = none) : (p.order_id == some k) = false := by
  unfold paymentOrderRef at h
  cases ho : p.order_id with
  | none => simp [ho]
  | some s =>
    rw [ho] at h
    have h2 : (if s.isEmpty then none else some s : Option String) = none := h
    by_cases hs : s.isEmpty
    · have hse : s = "" := (String.isEmpty_iff s).1 hs
      subst hse
      simp [ho]
      exact fun hc => hk hc.symm
    · rw [if_neg hs] at h2; cases h2

/-- First-seen-wins: a lookup in the fold-built order→payment map is the
id of the first payment in fetch order whose (truthy) `order_id` matches. -/
lemma orderToPayment_lookup (k : String) (hk : k ≠ "") :
    ∀ (ps : List SquarePayment) (m : List (String × String)),
      jsMapGet (ps.foldl
        (fun m2 p => match paymentOrderRef p with
          | some oid => if (jsMapGet m2 oid).isSome then m2 else m2 ++ [(oid, p.id)]
          | none => m2) m) k =
      match jsMapGet m k with
      | some v => some v
      | none => (ps.find? (fun p => p.order_id == some k)).map SquarePayment.id := by
  intro ps
  induction ps with
  | nil =>
    intro m
    rcases h : jsMapGet m k with _ | v <;> simp [h]
  | cons p rest ih =>
    intro m
    rw [List.foldl_cons]
    cases hr : paymentOrderRef p with
    | none =>
      simp only [hr]
      rw [ih m]
      simp only [List.find?_cons, paymentOrderRef_none_beq hk hr]
    | some oid =>
      obtain ⟨hoid, hne⟩ := paymentOrderRef_some hr
      simp only [hr]
      by_cases hko : oid = k
      · subst hko
        have hpred : (p.order_id == some oid) = true := by
          rw [hoid]; exact beq_self_eq_true _
        simp only [List.find?_cons, hpred]
        by_cases hs : (jsMapGet m oid).isSome
        · rw [if_pos hs, ih m]
          obtain ⟨v, hv⟩ := Option.isSome_iff_exists.1 hs
          rw [hv]
        · rw [if_neg hs, ih (m ++ [(oid, p.id)]), jsMapGet_append]
          rw [Option.not_isSome_iff_eq_none.1 hs]
          simp [jsMapGet]
      · have hpred : (p.order_id == some k) = false := by
          rw [hoid]
          simp [hko]
        simp only [List.find?_cons, hpred]
        by_cases hs : (jsMapGet m oid).isSome
        · rw [if_pos hs, ih m]
        · rw [if_neg hs, ih (m ++ [(oid, p.id)]), jsMapGet_append]
          have h2 : jsMapGet [(oid, p.id)] k = none := by
            simp [jsMapGet, hko]
            exact fun hc => hko hc.symm
          rcases h3 : jsMapGet m k with _ | v <;> simp [h3, h2]

lemma orderToPayment_nodup_aux :
    ∀ (ps : List SquarePayment) (m : List (String × String)),
      (m.map Prod.fst).Nodup →
      ((ps.foldl
        (fun m2 p => match paymentOrderRef p with
          | some oid => if (jsMapGet m2 oid).isSome then m2 else m2 ++ [(oid, p.id)]
          | none => m2) m).map Prod.fst).Nodup := by
  intro ps
  induction ps with
  | nil =>
    intro m h
    exact h
  | cons p rest ih =>
    intro m h
    rw [List.foldl_cons]
    cases hr : paymentOrderRef p with
    | none =>
      simp only [hr]
      exact ih m h
    | some oid =>
      simp only [hr]
      by_cases hs : (jsMapGet m oid).isSome
      · rw [if_pos hs]
        exact ih m h
      · rw [if_neg hs]
        apply ih
        have hout : oid ∉ m.map Prod.fst :=
          (jsMapGet_eq_none _ _).1 (Option.not_isSome_iff_eq_none.1 hs)
        rw [List.map_append]
        simp [List.nodup_append, h, hout]

lemma orderToPayment_keys_ne :
    ∀ (ps : List SquarePayment) (m : List (String × String)),
      (∀ k ∈ m.map Prod.fst, k ≠ "") →
      ∀ k ∈ ((ps.foldl
        (fun m2 p => match paymentOrderRef p with
          | some oid => if (jsMapGet m2 oid).isSome then m2 else m2 ++ [(oid, p.id)]
          | none => m2) m).map Prod.fst), k ≠ "" := by
  intro ps
  induction ps with
  | nil =>
    intro m h
    exact h
  | cons p rest ih =>
    intro m h
    rw [List.foldl_cons]
    cases hr : paymentOrderRef p with
    | none =>
      simp only [hr]
      exact ih m h
    | some oid =>
      obtain ⟨_, hne⟩ := paymentOrderRef_some hr
      simp only [hr]
      by_cases hs : (jsMapGet m oid).isSome
      · rw [if_pos hs]
        exact ih m h
      · rw [if_neg hs]
        apply ih
        intro k hkmem
        rw [List.map_append] at hkmem
        rcases List.mem_append.1 hkmem with h2 | h2
        · exact h k h2
        · simp at h2
          rw [h2]
          exact hne

lemma orderRowsFor_mem {fo : String → Option SquareOrder} {pid : Option String}
    {oid : String} {r : OrderItemRow} (h : r ∈ orderRowsFor fo pid oid) :
    ∃ o, fo oid = some o ∧
      ∃ li ∈ o.line_items.getD [], mapLineItemToRow o pid li = some r := by
  unfold orderRowsFor at h
  split at h
  · cases h
  · next o heq =>
    split at h
    · cases h
    · next lis heq2 =>
      split at h
      · cases h
      · obtain ⟨li, hli_mem, hmap⟩ := List.mem_filterMap.1 h
        exact ⟨o, heq, li, by rw [heq2]; exact hli_mem, hmap⟩

lemma mapLineItemToRow_fields {o : SquareOrder} {pid : Option String}
    {li : SquareLineItem} {r : OrderItemRow}
    (h : mapLineItemToRow o pid li = some r) :
    r.order_id = o.id ∧ r.payment_id = pid := by
  unfold mapLineItemToRow at h
  split at h
  · cases h
  · split at h
    · cases h
    · split at h
      · split at h
        · cases h
        · injection h with h2
          rw [← h2]
          exact ⟨rfl, rfl⟩
      · cases h

/-- Claim C7: (a) the order→payment join maps every (truthy) referenced
order id to the id of the *first* payment in fetch order referencing it;
(b) every produced OrderLineItem row carries that payment id (given a
provider whose fetched order carries the requested id); (c) the fetched
order ids — the elements of `uniqueOrderIds` — are exactly the referenced
order ids, each occurring once; (d) an order with no (or empty) line items
yields no rows, and no error (the per-order body is total). -/
theorem order_join_first_payment :
    (∀ (ps : List SquarePayment) (oid : String), oid ≠ "" →
        jsMapGet (orderToPayment ps) oid =
          (ps.find? (fun p => p.order_id == some oid)).map SquarePayment.id) ∧
    (∀ (fo : String → Option SquareOrder) (ps : List SquarePayment),
        (∀ oid o, fo oid = some o → o.id = oid) →
        ∀ r ∈ processOrders fo ps,
          r.order_id ≠ "" ∧
          r.payment_id =
            (ps.find? (fun p => p.order_id == some r.order_id)).map SquarePayment.id) ∧
    (∀ ps : List SquarePayment, (uniqueOrderIds ps).Nodup) ∧
    (∀ (ps : List SquarePayment) (oid : String), oid ≠ "" →
        (oid ∈ uniqueOrderIds ps ↔ ∃ p ∈ ps, p.order_id = some oid)) ∧
    (∀ (fo : String → Option SquareOrder) (pid : Option String) (oid : String)
        (o : SquareOrder), fo oid = some o →
        o.line_items = none ∨ o.line_items = some [] →
        orderRowsFor fo pid oid = []) := by
  have ha : ∀ (ps : List SquarePayment) (oid : String), oid ≠ "" →
      jsMapGet (orderToPayment ps) oid =
        (ps.find? (fun p => p.order_id == some oid)).map SquarePayment.id := by
    intro ps oid hne
    exact orderToPayment_lookup oid hne ps []
  have hb : ∀ (fo : String → Option SquareOrder) (ps : List SquarePayment),
      (∀ oid o, fo oid = some o → o.id = oid) →
      ∀ r ∈ processOrders fo ps,
        r.order_id ≠ "" ∧
        r.payment_id =
          (ps.find? (fun p => p.order_id == some r.order_id)).map SquarePayment.id := by
    intro fo ps hcons r hr
    obtain ⟨oid, hoid_mem, hr2⟩ := List.mem_flatMap.1 hr
    have hoid_ne : oid ≠ "" := orderToPayment_keys_ne ps [] (by simp) oid hoid_mem
    obtain ⟨o, hf, li, hli_mem, hmap⟩ := orderRowsFor_mem hr2
    obtain ⟨hro, hrp⟩ := mapLineItemToRow_fields hmap
    have hio : o.id = oid := hcons oid o hf
    refine ⟨by rw [hro, hio]; exact hoid_ne, ?_⟩
    rw [hrp, hro, hio]
    exact ha ps oid hoid_ne
  have hc2 : ∀ (ps : List SquarePayment) (oid : String), oid ≠ "" →
      (oid ∈ uniqueOrderIds ps ↔ ∃ p ∈ ps, p.order_id = some oid) := by
    intro ps oid hne
    have h1 := jsMapGet_eq_none oid (orderToPayment ps)
    have h2 := ha ps oid hne
    constructor
    · intro hmem
      have h3 : jsMapGet (orderToPayment ps) oid ≠ none := fun hc => (h1.1 hc) hmem
      rw [h2] at h3
      cases hf : ps.find? (fun p => p.order_id == some oid) with
      | none => rw [hf] at h3; simp at h3
      | some x =>
        obtain ⟨hx_mem, hx⟩ := And.intro (List.mem_of_find?_eq_some hf)
          (List.find?_some hf)
        exact ⟨x, hx_mem, by simpa using hx⟩
    · rintro ⟨p, hp_mem, hp⟩
      have h4 : (ps.find? (fun p => p.order_id == some oid)).isSome = true :=
        List.find?_isSome.2 ⟨p, hp_mem, by simp [hp]⟩
      by_contra hmem
      have h5 : jsMapGet (orderToPayment ps) oid = none := h1.2 hmem
      rw [h2] at h5
      cases hf : ps.find? (fun p => p.order_id == some oid) with
      | none => rw [hf] at h4; simp at h4
      | some x => rw [hf] at h5; simp at h5
  have hd : ∀ (fo : String → Option SquareOrder) (pid : Option String) (oid : String)
      (o : SquareOrder), fo oid = some o →
      o.line_items = none ∨ o.line_items = some [] →
      orderRowsFor fo pid oid = [] := by
    intro fo pid oid o hf hli
    unfold orderRowsFor
    rcases hli with h | h <;> simp [hf, h]
  exact ⟨ha, hb, fun ps => orderToPayment_nodup_aux ps [] (by simp), hc2, hd⟩

def pay1 : SquarePayment := { id := "P1", created_at := "c1", order_id := some "O1" }

def pay2 : SquarePayment := { id := "P2", created_at := "c2", order_id := some "O1" }

def li1 : SquareLineItem := { uid := some "u1", quantity := some "1" }

def li2 : SquareLineItem := { uid := some "u2", quantity := some "1" }

def order1 : SquareOrder := { id := "O1", line_items := some [li1, li2] }

def fetchOrder1 : String → Option SquareOrder :=
  fun oid => if oid = "O1" then some order1 else none

def row1 : OrderItemRow :=
  { order_id := "O1", payment_id := some "P1", line_item_uid := "u1",
    catalog_object_id := none, item_name := none, sku := none,
    quantity := mkRat 1 1, base_price_amount := none, total_money_amount := none,
    currency := none, location_id := none, raw_payload := li1 }

/-- Witness for C7: the spec's two-payments-one-order example; the row of
line `u1` carries the first payment's id. -/
theorem order_join_first_payment_witness :
    jsMapGet (orderToPayment [pay1, pay2]) "O1" =
      ([pay1, pay2].find? (fun p => p.order_id == some "O1")).map SquarePayment.id ∧
    (uniqueOrderIds [pay1, pay2]).Nodup ∧
    row1.payment_id =
      ([pay1, pay2].find? (fun p => p.order_id == some row1.order_id)).map
        SquarePayment.id := by
  have hcons : ∀ oid o, fetchOrder1 oid = some o → o.id = oid := by
    intro oid o h
    unfold fetchOrder1 at h
    by_cases hc : oid = "O1"
    · rw [if_pos hc] at h
      injection h with h2
      rw [← h2, hc]
      rfl
    · rw [if_neg hc] at h; cases h
  refine ⟨order_join_first_payment.1 [pay1, pay2] "O1" (by decide),
          order_join_first_payment.2.2.1 [pay1, pay2],
          (order_join_first_payment.2.1 fetchOrder1 [pay1, pay2] hcons row1 ?_).2⟩
  decide

end SquareETL
